import Mathlib

/-!
Verification development for the SearchSmartly POI import pipeline
(`poi/management/commands/import_poi.py` and `poi/models.py`).

The Python code is shallowly embedded: strings are processed as `List Char`,
Python `Decimal`/`float` textual values as exact scaled decimals (`Dec`),
Python runtime values stored in the `ratings` JSON field as `PyVal`, the
database table behind `PointOfInterest.objects` as a list of stored rows,
and each importer as a pure function from content/parse results and a store
to a new store plus the `(imported, skipped, updated)` counter triple.
Exceptions that the Python code catches are modelled with `Option`/explicit
error branches; exceptions that escape a function are modelled with `Except`.
-/

/-- Characters Python `str.strip()` and `float()` treat as strippable
whitespace (ASCII fragment; exotic Unicode whitespace is not modelled). -/
def pyIsSpace (c : Char) : Bool :=
  c = ' ' || c = '\t' || c = '\n' || c = '\x0d' || c = '\x0b' || c = '\x0c'

/-- Decimal digit test. -/
def isDigitCh (c : Char) : Bool :=
  '0' ≤ c && c ≤ '9'

/-- Numeric value of a digit character. -/
def digitVal (c : Char) : Nat :=
  c.toNat - 48

/-- Natural number denoted by a digit string (most significant first). -/
def natOfDigits (ds : List Char) : Nat :=
  ds.foldl (fun n c => n * 10 + digitVal c) 0

/-- An exact decimal value `mant * 10 ^ exp`, the common model for Python
`float` and `decimal.Decimal` values produced by parsing plain numerals.
Parsed values are canonical: trailing zero digits are folded into `exp`
and zero is `⟨0, 0⟩`, so two numerals denoting the same number parse to
equal `Dec`s.  Binary floating point rounding and `Decimal` scale
preservation are not modelled; no claim in scope distinguishes them. -/
structure Dec where
  mant : Int
  exp : Int
deriving DecidableEq, Repr

/-- Build the canonical `Dec` from a sign, the concatenated digit string,
and the base exponent (already accounting for the fraction length). -/
def mkDec (neg : Bool) (digits : List Char) (e : Int) : Dec :=
  let rev := digits.reverse
  let zeros := rev.takeWhile (fun c => c = '0')
  let kept := (rev.dropWhile (fun c => c = '0')).reverse
  if kept = [] then ⟨0, 0⟩
  else ⟨(if neg then -1 else 1) * (natOfDigits kept : Int), e + zeros.length⟩

/-- Rational value of a `Dec`. -/
def Dec.toRat (d : Dec) : ℚ :=
  (d.mant : ℚ) * (10 : ℚ) ^ (d.exp : ℤ)

/-- Split off an optional leading sign; `true` means negative. -/
def takeSign : List Char → Bool × List Char
  | '-' :: cs => (true, cs)
  | '+' :: cs => (false, cs)
  | cs => (false, cs)

/-- Grammar shared by Python `float(s)` and `decimal.Decimal(s)` on plain
numerals: optional surrounding whitespace, optional sign, digits with an
optional decimal point (at least one digit overall), and an optional
`e`/`E` exponent with its own optional sign and at least one digit.
`inf`/`nan` spellings and digit-group underscores are not modelled (they
behave as parse failures here); no claim in scope exercises them. -/
def parseNumeral (cs0 : List Char) : Option Dec :=
  let cs1 := (((cs0.dropWhile pyIsSpace).reverse).dropWhile pyIsSpace).reverse
  let (neg, cs2) := takeSign cs1
  let intDs := cs2.takeWhile isDigitCh
  let rest2 := cs2.dropWhile isDigitCh
  let (fracDs, rest3) :=
    match rest2 with
    | '.' :: cs3 => (cs3.takeWhile isDigitCh, cs3.dropWhile isDigitCh)
    | _ => ([], rest2)
  if intDs = [] ∧ fracDs = [] then none
  else
    match rest3 with
    | [] => some (mkDec neg (intDs ++ fracDs) (-(fracDs.length : Int)))
    | e :: cs4 =>
      if e = 'e' ∨ e = 'E' then
        let (eneg, cs5) := takeSign cs4
        let expDs := cs5.takeWhile isDigitCh
        let rest5 := cs5.dropWhile isDigitCh
        if expDs = [] ∨ rest5 ≠ [] then none
        else
          let ev : Int := (if eneg then -1 else 1) * (natOfDigits expDs : Int)
          some (mkDec neg (intDs ++ fracDs) (ev - (fracDs.length : Int)))
      else none

/-- Python `float(s)` for a string, as used by `parse_ratings`:
`none` models a raised `ValueError`. -/
def pyFloatOfStr (s : List Char) : Option Dec :=
  parseNumeral s

/-- Python `decimal.Decimal(s)` for a string, as used for the
latitude/longitude fields: `none` models a raised `InvalidOperation`. -/
def pyDecimalOfStr (s : List Char) : Option Dec :=
  parseNumeral s

/-- A Python runtime value, as far as the import pipeline can observe one:
the possible results of `json.loads`, the CSV/XML cell values, and the
contents of the `ratings` JSON field. -/
inductive PyVal where
  | none
  | bool (b : Bool)
  | int (n : Int)
  | float (d : Dec)
  | str (s : List Char)
  | list (xs : List PyVal)
  | dict (kvs : List (List Char × PyVal))
deriving Repr

mutual

/-- Structural equality test for `PyVal` (Python `==` restricted to values
of identical shape; the claims never compare across numeric towers). -/
def pyValBeq : PyVal → PyVal → Bool
  | .none, .none => true
  | .bool a, .bool b => a = b
  | .int a, .int b => a = b
  | .float a, .float b => a = b
  | .str a, .str b => a = b
  | .list a, .list b => pyValListBeq a b
  | .dict a, .dict b => pyValKvsBeq a b
  | _, _ => false

/-- Pointwise `pyValBeq` on lists. -/
def pyValListBeq : List PyVal → List PyVal → Bool
  | [], [] => true
  | x :: xs, y :: ys => pyValBeq x y && pyValListBeq xs ys
  | _, _ => false

/-- Pointwise `pyValBeq` on key/value lists. -/
def pyValKvsBeq : List (List Char × PyVal) → List (List Char × PyVal) → Bool
  | [], [] => true
  | (k, v) :: xs, (l, w) :: ys => k = l && pyValBeq v w && pyValKvsBeq xs ys
  | _, _ => false

end

mutual

theorem pyValBeq_iff : ∀ a b : PyVal, pyValBeq a b = true ↔ a = b
  | .none, b => by
    cases b <;> simp [pyValBeq]
  | .bool a, b => by
    cases b <;> simp [pyValBeq]
  | .int a, b => by
    cases b <;> simp [pyValBeq]
  | .float a, b => by
    cases b <;> simp [pyValBeq]
  | .str a, b => by
    cases b <;> simp [pyValBeq]
  | .list xs, b => by
    cases b <;> simp [pyValBeq]
    exact pyValListBeq_iff xs _
  | .dict xs, b => by
    cases b <;> simp [pyValBeq]
    exact pyValKvsBeq_iff xs _

theorem pyValListBeq_iff : ∀ a b : List PyVal, pyValListBeq a b = true ↔ a = b
  | [], b => by
    cases b <;> simp [pyValListBeq]
  | x :: xs, b => by
    cases b with
    | nil => simp [pyValListBeq]
    | cons y ys =>
      simp only [pyValListBeq, Bool.and_eq_true, List.cons.injEq]
      exact and_congr (pyValBeq_iff x y) (pyValListBeq_iff xs ys)

theorem pyValKvsBeq_iff :
    ∀ a b : List (List Char × PyVal), pyValKvsBeq a b = true ↔ a = b
  | [], b => by
    cases b <;> simp [pyValKvsBeq]
  | (k, v) :: xs, b => by
    cases b with
    | nil => simp [pyValKvsBeq]
    | cons y ys =>
      obtain ⟨l, w⟩ := y
      simp only [pyValKvsBeq, Bool.and_eq_true, List.cons.injEq, Prod.mk.injEq,
        decide_eq_true_eq, and_assoc]
      exact and_congr_right fun _ =>
        and_congr (pyValBeq_iff v w) (pyValKvsBeq_iff xs ys)

end

instance : DecidableEq PyVal := fun a b =>
  if h : pyValBeq a b = true then .isTrue ((pyValBeq_iff a b).mp h)
  else .isFalse fun e => h ((pyValBeq_iff a b).mpr e)

/-- Whitespace accepted between JSON tokens by `json.loads`. -/
def jsonWsCh (c : Char) : Bool :=
  c = ' ' || c = '\t' || c = '\n' || c = '\x0d'

/-- One-character JSON string escapes (`\uXXXX` escapes are not modelled
and behave as parse failures; no claim in scope exercises them). -/
def jsonEsc : Char → Option Char
  | '"' => some '"'
  | '\\' => some '\\'
  | '/' => some '/'
  | 'b' => some '\x08'
  | 'f' => some '\x0c'
  | 'n' => some '\n'
  | 'r' => some '\x0d'
  | 't' => some '\t'
  | _ => Option.none

/-- Body of a JSON string after the opening quote: returns the decoded
characters and the input after the closing quote. -/
def jsonStringBody : List Char → Option (List Char × List Char)
  | [] => Option.none
  | '"' :: rest => some ([], rest)
  | '\\' :: e :: rest =>
    match jsonEsc e with
    | some c => (jsonStringBody rest).map fun (s, r) => (c :: s, r)
    | Option.none => Option.none
  | c :: rest =>
    if c.toNat < 32 then Option.none
    else (jsonStringBody rest).map fun (s, r) => (c :: s, r)

/-- A JSON number: `-? (0 | [1-9][0-9]*) (. [0-9]+)? ([eE][+-]?[0-9]+)?`,
yielding a Python `int` when it has no fraction and no exponent and a
`float` otherwise, exactly as `json.loads` does. -/
def jsonNumber (cs : List Char) : Option (PyVal × List Char) :=
  let (neg, cs1) := match cs with
    | '-' :: r => (true, r)
    | _ => (false, cs)
  match cs1 with
  | [] => Option.none
  | c :: _ =>
    if ¬ isDigitCh c then Option.none
    else
      let (intDs, rest1) :=
        if c = '0' then (['0'], cs1.tail)
        else (cs1.takeWhile isDigitCh, cs1.dropWhile isDigitCh)
      let (fracDs, rest2) :=
        match rest1 with
        | '.' :: r => (r.takeWhile isDigitCh, r.dropWhile isDigitCh)
        | _ => ([], rest1)
      let hasFrac := match rest1 with
        | '.' :: _ => true
        | _ => false
      if hasFrac ∧ fracDs = [] then Option.none
      else
        match rest2 with
        | 'e' :: r | 'E' :: r =>
          let (eneg, r1) := takeSign r
          let expDs := r1.takeWhile isDigitCh
          let rest3 := r1.dropWhile isDigitCh
          if expDs = [] then Option.none
          else
            let ev : Int := (if eneg then -1 else 1) * (natOfDigits expDs : Int)
            some (.float (mkDec neg (intDs ++ fracDs) (ev - (fracDs.length : Int))), rest3)
        | _ =>
          if hasFrac then
            some (.float (mkDec neg (intDs ++ fracDs) (-(fracDs.length : Int))), rest2)
          else
            some (.int ((if neg then -1 else 1) * (natOfDigits intDs : Int)), rest2)

mutual

/-- Fuel-indexed recursive-descent JSON value parser (the model of the
grammar `json.loads` accepts; `NaN`/`Infinity` literals are not modelled
and behave as parse failures — no claim in scope exercises them).
Returns the value and the unconsumed input. -/
def jsonValue : Nat → List Char → Option (PyVal × List Char)
  | 0, _ => Option.none
  | f + 1, cs =>
    match cs.dropWhile jsonWsCh with
    | [] => Option.none
    | '{' :: rest => jsonObjectBody f rest
    | '[' :: rest => jsonArrayBody f rest
    | '"' :: rest => (jsonStringBody rest).map fun (s, r) => (.str s, r)
    | 't' :: 'r' :: 'u' :: 'e' :: rest => some (.bool true, rest)
    | 'f' :: 'a' :: 'l' :: 's' :: 'e' :: rest => some (.bool false, rest)
    | 'n' :: 'u' :: 'l' :: 'l' :: rest => some (.none, rest)
    | cs' => jsonNumber cs'

/-- JSON array after the opening bracket. -/
def jsonArrayBody : Nat → List Char → Option (PyVal × List Char)
  | 0, _ => Option.none
  | f + 1, cs =>
    match cs.dropWhile jsonWsCh with
    | ']' :: rest => some (.list [], rest)
    | cs' =>
      match jsonValue f cs' with
      | some (v, r) => jsonArrayRest f [v] r
      | Option.none => Option.none

/-- JSON array elements after the first: `, value`* followed by `]`. -/
def jsonArrayRest : Nat → List PyVal → List Char → Option (PyVal × List Char)
  | 0, _, _ => Option.none
  | f + 1, acc, cs =>
    match cs.dropWhile jsonWsCh with
    | ']' :: rest => some (.list acc.reverse, rest)
    | ',' :: rest =>
      match jsonValue f rest with
      | some (v, r) => jsonArrayRest f (v :: acc) r
      | Option.none => Option.none
    | _ => Option.none

/-- JSON object after the opening brace. -/
def jsonObjectBody : Nat → List Char → Option (PyVal × List Char)
  | 0, _ => Option.none
  | f + 1, cs =>
    match cs.dropWhile jsonWsCh with
    | '}' :: rest => some (.dict [], rest)
    | '"' :: rest =>
      match jsonStringBody rest with
      | some (k, r) => jsonMember f [] k r
      | Option.none => Option.none
    | _ => Option.none

/-- Parses `: value` after an object key, then continues with the rest. -/
def jsonMember :
    Nat → List (List Char × PyVal) → List Char → List Char →
    Option (PyVal × List Char)
  | 0, _, _, _ => Option.none
  | f + 1, acc, k, cs =>
    match cs.dropWhile jsonWsCh with
    | ':' :: rest =>
      match jsonValue f rest with
      | some (v, r) => jsonObjectRest f ((k, v) :: acc) r
      | Option.none => Option.none
    | _ => Option.none

/-- JSON object members after the first: `, "key" : value`* then `}`. -/
def jsonObjectRest :
    Nat → List (List Char × PyVal) → List Char → Option (PyVal × List Char)
  | 0, _, _ => Option.none
  | f + 1, acc, cs =>
    match cs.dropWhile jsonWsCh with
    | '}' :: rest => some (.dict acc.reverse, rest)
    | ',' :: rest =>
      match rest.dropWhile jsonWsCh with
      | '"' :: rest' =>
        match jsonStringBody rest' with
        | some (k, r) => jsonMember f acc k r
        | Option.none => Option.none
      | _ => Option.none
    | _ => Option.none

end

/-- Python `json.loads(s)`: parse one JSON value and require only
whitespace after it; `none` models a raised `JSONDecodeError`. -/
def jsonLoads (s : List Char) : Option PyVal :=
  match jsonValue (4 * (s.length + 1)) s with
  | some (v, rest) =>
    if rest.dropWhile jsonWsCh = [] then some v else Option.none
  | Option.none => Option.none

/-- Characters stripped by Python `ratings_data.strip("{}")`. -/
def braceCh (c : Char) : Bool :=
  c = '{' || c = '}'

/-- Python `s.strip("{}")`: remove `{`/`}` from both ends. -/
def stripBraces (cs : List Char) : List Char :=
  (((cs.dropWhile braceCh).reverse).dropWhile braceCh).reverse

/-- Python `s.strip()`: remove whitespace from both ends. -/
def pyStrip (cs : List Char) : List Char :=
  (((cs.dropWhile pyIsSpace).reverse).dropWhile pyIsSpace).reverse

/-- Python `s.split(sep)` for a one-character separator: in particular the
split of the empty string is `[""]`. -/
def splitOnCh (sep : Char) : List Char → List (List Char)
  | [] => [[]]
  | c :: cs =>
    if c = sep then [] :: splitOnCh sep cs
    else
      match splitOnCh sep cs with
      | p :: ps => (c :: p) :: ps
      | [] => [[c]]

/-- `Command.parse_ratings` (import_poi.py): a list is returned as-is; a
string is tried as JSON, then as brace-stripped comma-separated floats
(empty pieces skipped, any bad piece failing the whole attempt), then as a
single float; everything else — and total failure — yields the empty
list.  `Option.none` from the sub-parsers models the caught
`JSONDecodeError`/`ValueError` exceptions. -/
def parse_ratings (ratings_data : PyVal) : PyVal :=
  match ratings_data with
  | .list _ => ratings_data
  | .str s =>
    match jsonLoads s with
    | some v => v
    | Option.none =>
      let pieces := (splitOnCh ',' (stripBraces s)).filter (· ≠ [])
      match pieces.mapM (fun x => pyFloatOfStr (pyStrip x)) with
      | some fs => .list (fs.map PyVal.float)
      | Option.none =>
        match pyFloatOfStr s with
        | some f => .list [.float f]
        | Option.none => .list []
  | _ => .list []

/-- Python truthiness (`if not self.ratings`) for the values a JSON field
can hold. -/
def pyTruthy : PyVal → Bool
  | .none => false
  | .bool b => b
  | .int n => n ≠ 0
  | .float d => d.mant ≠ 0
  | .str s => s ≠ []
  | .list xs => xs ≠ []
  | .dict kvs => kvs ≠ []

/-- The numeric value Python's `sum` can add to an `int`/`float`
accumulator: `bool` counts as `int`; anything else raises `TypeError`,
modelled as `none`. -/
def pyNumToRat : PyVal → Option ℚ
  | .bool b => some (if b then 1 else 0)
  | .int n => some (n : ℚ)
  | .float d => some d.toRat
  | _ => Option.none

/-- Python `sum(xs)` over a list of `PyVal`s starting from `0`: the exact
rational sum when every element is numeric, `none` (a `TypeError`)
otherwise. -/
def pySum (xs : List PyVal) : Option ℚ :=
  (xs.mapM pyNumToRat).map List.sum

/-- `PointOfInterest.average_rating` (models.py): `0.0` for falsy ratings,
`float(ratings)` for a bare `bool`/`int`/`float` (Python's
`isinstance(ratings, (int, float))` includes `bool`), the mean for a list
that `sum` accepts, and `0.0` for every other shape or caught exception. -/
def average_rating (ratings : PyVal) : ℚ :=
  if ¬ pyTruthy ratings then 0
  else
    match ratings with
    | .bool b => if b then 1 else 0
    | .int n => (n : ℚ)
    | .float d => d.toRat
    | .list xs =>
      match pySum xs with
      | some s => s / (xs.length : ℚ)
      | Option.none => 0
    | _ => 0

/-- The normalized-input record (`poi_data` dict) one parser builds per
record.  `description` is `some v` when the key is present in the dict
(only the JSON parser puts it there) and `none` when absent, since
`save_poi`'s update loop runs over exactly the supplied keys. -/
structure PoiData where
  external_id : PyVal
  name : PyVal
  latitude : Dec
  longitude : Dec
  category : PyVal
  ratings : PyVal
  description : Option PyVal := Option.none
deriving DecidableEq, Repr

/-- A stored `PointOfInterest` row, as far as the import logic observes it
(the auto `internal_id` and the timestamps are store-managed and never
read by the importer). `description`'s column default is NULL
(`PyVal.none`). -/
structure StoredPoi where
  external_id : PyVal
  name : PyVal
  latitude : Dec
  longitude : Dec
  category : PyVal
  ratings : PyVal
  description : PyVal
deriving DecidableEq, Repr

/-- The row `get_or_create` inserts from `defaults=poi_data`: every
supplied field, the column default for an absent `description`. -/
def createPoi (pd : PoiData) : StoredPoi :=
  { external_id := pd.external_id, name := pd.name, latitude := pd.latitude,
    longitude := pd.longitude, category := pd.category, ratings := pd.ratings,
    description := pd.description.getD .none }

/-- The `for field, value in poi_data.items(): setattr(poi, field, value)`
update loop: every supplied field overwritten, absent `description` left
alone. -/
def applyFields (p : StoredPoi) (pd : PoiData) : StoredPoi :=
  { external_id := pd.external_id, name := pd.name, latitude := pd.latitude,
    longitude := pd.longitude, category := pd.category, ratings := pd.ratings,
    description := pd.description.getD p.description }

/-- The `(imported, skipped, updated)` counter triple the importers
return and the orchestrator accumulates. -/
structure Counts where
  imported : Nat
  skipped : Nat
  updated : Nat
deriving DecidableEq, Repr

instance : Add Counts :=
  ⟨fun a b => ⟨a.imported + b.imported, a.skipped + b.skipped, a.updated + b.updated⟩⟩

theorem Counts.add_def (a b : Counts) :
    a + b = ⟨a.imported + b.imported, a.skipped + b.skipped, a.updated + b.updated⟩ :=
  rfl

/-- `Command.save_poi` (import_poi.py): `get_or_create` keyed on
`external_id` with `defaults=poi_data`; created → `(1,0,0)`; found and
`update_existing` → every supplied field overwritten and saved,
`(0,0,1)`; found otherwise → `(0,1,0)`. `storeFail` models an exception
from the database layer: the `except` clause converts it to `(0,1,0)` and
the `transaction.atomic` wrapper leaves the store unchanged. -/
def save_poi (storeFail : Bool) (db : List StoredPoi) (poi_data : PoiData)
    (update_existing : Bool) : List StoredPoi × Counts :=
  if storeFail then (db, ⟨0, 1, 0⟩)
  else
    match db.find? (fun p => decide (p.external_id = poi_data.external_id)) with
    | Option.none => (db ++ [createPoi poi_data], ⟨1, 0, 0⟩)
    | some _ =>
      if update_existing then
        (db.map fun p =>
          if p.external_id = poi_data.external_id then applyFields p poi_data else p,
         ⟨0, 0, 1⟩)
      else (db, ⟨0, 1, 0⟩)

/-- The shared per-record loop of every parser: each record attempt is
either a built `poi_data` (fed to `save_poi`) or `none` (a caught
per-record exception — missing field, bad numeral — whose handler does
`skipped += 1` and continues).  `failAt i` is the store-failure oracle for
the `i`-th attempt of the source. -/
def runRecords (failAt : Nat → Bool) (update_existing : Bool) :
    List (Option PoiData) → List StoredPoi → Nat → List StoredPoi × Counts
  | [], db, _ => (db, ⟨0, 0, 0⟩)
  | rec :: rs, db, i =>
    let step :=
      match rec with
      | some pd => save_poi (failAt i) db pd update_existing
      | Option.none => (db, ⟨0, 1, 0⟩)
    let rest := runRecords failAt update_existing rs step.1 (i + 1)
    (rest.1, step.2 + rest.2)

/-- Python `str.splitlines` restricted to the `\n`, `\r\n`, `\r`
terminators (the exotic Unicode terminators are not modelled): the
segment after the last terminator is kept only when non-empty. -/
def splitlinesAux (acc : List Char) : List Char → List (List Char)
  | [] => if acc = [] then [] else [acc.reverse]
  | '\n' :: cs => acc.reverse :: splitlinesAux [] cs
  | '\x0d' :: '\n' :: cs => acc.reverse :: splitlinesAux [] cs
  | '\x0d' :: cs => acc.reverse :: splitlinesAux [] cs
  | c :: cs => splitlinesAux (c :: acc) cs

/-- Python `content.splitlines()`. -/
def pySplitlines (cs : List Char) : List (List Char) :=
  splitlinesAux [] cs

/-- One CSV line as the `csv` module reads it, restricted to unquoted
fields (no claim in scope uses quoting): an empty line has no fields,
otherwise the comma-separated pieces. -/
def csvFields (line : List Char) : List (List Char) :=
  if line = [] then [] else splitOnCh ',' line

/-- A `csv.DictReader` row: header name to cell, `none` standing for the
`None` a short row gets for its missing trailing columns (`restval`). -/
def CsvRow : Type :=
  List (List Char × Option (List Char))

/-- Pair headers with a row's fields, padding a short row with `None` and
dropping the extra fields of a long one (they go to the unused `restkey`). -/
def mkRow : List (List Char) → List (List Char) → CsvRow
  | [], _ => []
  | h :: hs, [] => (h, Option.none) :: mkRow hs []
  | h :: hs, v :: vs => (h, some v) :: mkRow hs vs

/-- `row[key]` on a `DictReader` row: `none` is a `KeyError`; with
duplicate headers the last binding wins, as in a Python dict built by
zipping. -/
def rowGet (row : CsvRow) (key : List Char) : Option (Option (List Char)) :=
  match row.reverse.find? (fun kv => decide (kv.1 = key)) with
  | some kv => some kv.2
  | Option.none => Option.none

/-- The rows `csv.DictReader` yields: fieldnames from the first line,
blank rows skipped, each remaining line zipped against the header. -/
def dictReaderRows (lines : List (List Char)) : List CsvRow :=
  match lines with
  | [] => []
  | hdr :: rest =>
    ((rest.map csvFields).filter (· ≠ [])).map (mkRow (csvFields hdr))

/-- A CSV/XML cell as the Python value the dict receives. -/
def cellToPyVal : Option (List Char) → PyVal
  | some s => .str s
  | Option.none => .none

/-- `Decimal(cell)`: `Decimal(None)` raises `TypeError`, a bad numeral
raises `InvalidOperation`; both are per-record failures. -/
def decimalOfCell : Option (List Char) → Option Dec
  | some s => pyDecimalOfStr s
  | Option.none => Option.none

/-- The `poi_data` dict built from one CSV row (import_csv /
import_csv_from_content): a missing column is a `KeyError`, a bad or
`None` latitude/longitude a `Decimal` error; any failure makes the whole
record attempt fail (`none`). -/
def buildCsvPoi (row : CsvRow) : Option PoiData := do
  let eid ← rowGet row "poi_id".data
  let nm ← rowGet row "poi_name".data
  let latC ← rowGet row "poi_latitude".data
  let lat ← decimalOfCell latC
  let lonC ← rowGet row "poi_longitude".data
  let lon ← decimalOfCell lonC
  let cat ← rowGet row "poi_category".data
  let rat ← rowGet row "poi_ratings".data
  pure { external_id := cellToPyVal eid, name := cellToPyVal nm,
         latitude := lat, longitude := lon, category := cellToPyVal cat,
         ratings := parse_ratings (cellToPyVal rat) }

/-- `Command.import_csv_from_content`: empty content returns `(0,0,0)`
early; otherwise the first line is the header and each `DictReader` row
is one record attempt. -/
def import_csv_from_content (failAt : Nat → Bool) (content : List Char)
    (update_existing : Bool) (db : List StoredPoi) : List StoredPoi × Counts :=
  match pySplitlines content with
  | [] => (db, ⟨0, 0, 0⟩)
  | lines => runRecords failAt update_existing
      ((dictReaderRows lines).map buildCsvPoi) db 0

/-- `Command.import_csv` (local file): the same `DictReader` loop over the
file's lines, without the empty-content early return. -/
def import_csv (failAt : Nat → Bool) (fileContent : List Char)
    (update_existing : Bool) (db : List StoredPoi) : List StoredPoi × Counts :=
  runRecords failAt update_existing
    ((dictReaderRows (pySplitlines fileContent)).map buildCsvPoi) db 0

/-- An `xml.etree.ElementTree` element: tag, text content, children. -/
inductive XmlElem where
  | mk (tag : List Char) (text : Option (List Char)) (children : List XmlElem)

/-- Tag of an element. -/
def XmlElem.tag : XmlElem → List Char
  | .mk t _ _ => t

/-- Text of an element (`None` when empty). -/
def XmlElem.text : XmlElem → Option (List Char)
  | .mk _ tx _ => tx

/-- Children of an element. -/
def XmlElem.children : XmlElem → List XmlElem
  | .mk _ _ cs => cs

mutual

/-- `root.findall('.//t')`: every proper descendant with tag `t`, in
document order. -/
def findallDesc (t : List Char) : XmlElem → List XmlElem
  | .mk _ _ cs => findallDescList t cs

/-- `findallDesc` over a child list, keeping document order. -/
def findallDescList (t : List Char) : List XmlElem → List XmlElem
  | [] => []
  | c :: cs =>
    (if c.tag = t then [c] else []) ++ findallDesc t c ++ findallDescList t cs

end

/-- `element.find('t')`: the first direct child with tag `t`. -/
def xmlFind (t : List Char) (e : XmlElem) : Option XmlElem :=
  e.children.find? fun c => decide (c.tag = t)

/-- `element.find('t').text`: `none` is the `AttributeError` raised when
`find` returned `None`; `some none` is an element with empty text. -/
def xmlFieldText (e : XmlElem) (t : List Char) : Option (Option (List Char)) :=
  (xmlFind t e).map XmlElem.text

/-- The `poi_data` dict built from one XML record element
(import_xml / import_xml_from_content). -/
def buildXmlPoi (e : XmlElem) : Option PoiData := do
  let eid ← xmlFieldText e "pid".data
  let nm ← xmlFieldText e "pname".data
  let latT ← xmlFieldText e "platitude".data
  let lat ← decimalOfCell latT
  let lonT ← xmlFieldText e "plongitude".data
  let lon ← decimalOfCell lonT
  let cat ← xmlFieldText e "pcategory".data
  let rat ← xmlFieldText e "pratings".data
  pure { external_id := cellToPyVal eid, name := cellToPyVal nm,
         latitude := lat, longitude := lon, category := cellToPyVal cat,
         ratings := parse_ratings (cellToPyVal rat) }

/-- Record-element selection of `import_xml_from_content` (line 212):
`root.findall('.//poi') or .//point or .//item or .//DATA_RECORD`, then
the root itself when all four are empty. -/
def xmlRecordElemsContent (root : XmlElem) : List XmlElem :=
  let es :=
    match findallDesc "poi".data root with
    | [] =>
      match findallDesc "point".data root with
      | [] =>
        match findallDesc "item".data root with
        | [] => findallDesc "DATA_RECORD".data root
        | es => es
      | es => es
    | es => es
  match es with
  | [] => [root]
  | _ => es

/-- Record-element selection of `import_xml` (line 319): only
`.//poi or .//point or .//item` — no `DATA_RECORD` candidate — then the
root itself when all three are empty. -/
def xmlRecordElemsFile (root : XmlElem) : List XmlElem :=
  let es :=
    match findallDesc "poi".data root with
    | [] =>
      match findallDesc "point".data root with
      | [] => findallDesc "item".data root
      | es => es
    | es => es
  match es with
  | [] => [root]
  | _ => es

/-- `Command.import_xml_from_content`: `parsed` is the outcome of
`ET.fromstring(content)` (`none` = `ET.ParseError`).  On parse failure
the outer `except` logs the "trying SearchSmartly format" notice — the
returned `Bool` — and falls through to return the still-zero counters;
the guarded `raise ET.ParseError("No valid XML elements found")` is
unreachable because the fallback list `[root]` is never empty. -/
def import_xml_from_content (failAt : Nat → Bool) (parsed : Option XmlElem)
    (update_existing : Bool) (db : List StoredPoi) :
    List StoredPoi × Counts × Bool :=
  match parsed with
  | Option.none => (db, ⟨0, 0, 0⟩, true)
  | some root =>
    let r := runRecords failAt update_existing
      ((xmlRecordElemsContent root).map buildXmlPoi) db 0
    (r.1, r.2, false)

/-- `Command.import_xml` (local file): `parsed` is the outcome of
`ET.parse(file_path)` (`none` = `ET.ParseError`), which this path turns
into a raised `CommandError` instead of returning. -/
def import_xml (failAt : Nat → Bool) (parsed : Option XmlElem)
    (update_existing : Bool) (db : List StoredPoi) :
    Except (List Char) (List StoredPoi × Counts) :=
  match parsed with
  | Option.none => .error "Invalid XML file".data
  | some root =>
    .ok (runRecords failAt update_existing
      ((xmlRecordElemsFile root).map buildXmlPoi) db 0)

/-- Lower-case an ASCII character (Python `str.lower()` restricted to
ASCII, all the dispatch logic needs). -/
def lowerCh (c : Char) : Char :=
  if 'A' ≤ c ∧ c ≤ 'Z' then Char.ofNat (c.toNat + 32) else c

/-- Python `s.lower()`. -/
def pyLower (cs : List Char) : List Char :=
  cs.map lowerCh

/-- Does `cs` start with `pat`? -/
def listStartsWith : List Char → List Char → Bool
  | [], _ => true
  | _ :: _, [] => false
  | p :: ps, c :: cs => p = c && listStartsWith ps cs

/-- Python `pat in s`: contiguous substring containment. -/
def containsSub (pat : List Char) : List Char → Bool
  | [] => pat = []
  | c :: cs => listStartsWith pat (c :: cs) || containsSub pat cs

/-- Python `s.endswith(suf)`. -/
def listEndsWith (suf cs : List Char) : Bool :=
  listStartsWith suf.reverse cs.reverse

/-- The three dispatchable formats. -/
inductive SrcFormat where
  | csv
  | json
  | xml
deriving DecidableEq, Repr

/-- The format dispatch of `Command.import_from_url` (lines 86 - 96): the
response content-type is lower-cased, then the chain
`'csv' in content_type or url.lower().endswith('.csv')`, then the same
for json, then for xml; no match models the raised `CommandError`. -/
def resolveUrlFormat (content_type url : List Char) : Option SrcFormat :=
  let ct := pyLower content_type
  let u := pyLower url
  if containsSub "csv".data ct || listEndsWith ".csv".data u then some .csv
  else if containsSub "json".data ct || listEndsWith ".json".data u then some .json
  else if containsSub "xml".data ct || listEndsWith ".xml".data u then some .xml
  else Option.none

/-- One line `Command.handle` writes: the per-source success line, the
per-source error line from the `except` clause, or the final totals
line. -/
inductive OutLine where
  | success (src : List Char) (c : Counts)
  | error (src : List Char) (msg : List Char)
  | totals (c : Counts)
deriving DecidableEq, Repr

/-- The per-source loop of `Command.handle`: `env src` is the outcome of
`self.import_file(src, update_existing)` — counters, or the exception the
bare `except` catches.  A failing source adds nothing to the totals and
produces an error line; the loop never stops early. -/
def handleSources (env : List Char → Except (List Char) Counts) :
    List (List Char) → Counts × List OutLine
  | [] => (⟨0, 0, 0⟩, [])
  | s :: ss =>
    match env s with
    | .ok c =>
      let rest := handleSources env ss
      (c + rest.1, .success s c :: rest.2)
    | .error e =>
      let rest := handleSources env ss
      (rest.1, .error s e :: rest.2)

/-- `Command.handle`: process every source, then always write the final
totals line. -/
def handle (env : List Char → Except (List Char) Counts)
    (sources : List (List Char)) : Counts × List OutLine :=
  let r := handleSources env sources
  (r.1, r.2 ++ [.totals r.1])

/-- Is a Python value a list (the "sequence" shape of the spec)? -/
def isPyList : PyVal → Bool
  | .list _ => true
  | _ => false

theorem counts_add_imported (a b : Counts) :
    (a + b).imported = a.imported + b.imported := rfl

theorem counts_add_skipped (a b : Counts) :
    (a + b).skipped = a.skipped + b.skipped := rfl

theorem counts_add_updated (a b : Counts) :
    (a + b).updated = a.updated + b.updated := rfl

theorem save_poi_find_none (db : List StoredPoi) (pd : PoiData)
    (h : ∀ p ∈ db, p.external_id ≠ pd.external_id) :
    db.find? (fun p => decide (p.external_id = pd.external_id)) = Option.none := by
  rw [List.find?_eq_none]
  intro x hx
  simpa using h x hx

theorem save_poi_find_some (db : List StoredPoi) (pd : PoiData)
    (h : ∃ p ∈ db, p.external_id = pd.external_id) :
    ∃ q, db.find? (fun p => decide (p.external_id = pd.external_id)) = some q := by
  have : (db.find? (fun p => decide (p.external_id = pd.external_id))).isSome := by
    rw [List.find?_isSome]
    obtain ⟨p, hp, he⟩ := h
    exact ⟨p, hp, by simpa using he⟩
  exact Option.isSome_iff_exists.mp this

/-- C1.  `save_poi` satisfies the reconciliation contract: no stored match
means a record carrying every supplied field is appended and `(1,0,0)` is
returned; a match with `update_existing = false` leaves the store
untouched and returns `(0,1,0)`; a match with `update_existing = true`
overwrites every supplied field of each matching row, leaves every other
row unchanged, and returns `(0,0,1)`. -/
theorem save_poi_reconciliation (db : List StoredPoi) (pd : PoiData) (upd : Bool) :
    ((∀ p ∈ db, p.external_id ≠ pd.external_id) →
      ∃ r, save_poi false db pd upd = (db ++ [r], ⟨1, 0, 0⟩) ∧
        r.external_id = pd.external_id ∧ r.name = pd.name ∧
        r.latitude = pd.latitude ∧ r.longitude = pd.longitude ∧
        r.category = pd.category ∧ r.ratings = pd.ratings ∧
        (∀ d, pd.description = some d → r.description = d)) ∧
    ((∃ p ∈ db, p.external_id = pd.external_id) →
      save_poi false db pd false = (db, ⟨0, 1, 0⟩)) ∧
    ((∃ p ∈ db, p.external_id = pd.external_id) →
      (save_poi false db pd true).2 = ⟨0, 0, 1⟩ ∧
      List.Forall₂ (fun p q =>
        (p.external_id = pd.external_id →
          q.external_id = pd.external_id ∧ q.name = pd.name ∧
          q.latitude = pd.latitude ∧ q.longitude = pd.longitude ∧
          q.category = pd.category ∧ q.ratings = pd.ratings ∧
          (∀ d, pd.description = some d → q.description = d)) ∧
        (p.external_id ≠ pd.external_id → q = p))
        db (save_poi false db pd true).1) := by
  refine ⟨fun hnone => ?_, fun hsome => ?_, fun hsome => ?_⟩
  · refine ⟨createPoi pd, ?_, rfl, rfl, rfl, rfl, rfl, rfl, ?_⟩
    · simp [save_poi, save_poi_find_none db pd hnone]
    · intro d hd
      simp [createPoi, hd]
  · obtain ⟨q, hq⟩ := save_poi_find_some db pd hsome
    simp [save_poi, hq]
  · obtain ⟨q, hq⟩ := save_poi_find_some db pd hsome
    constructor
    · simp [save_poi, hq]
    · have hmap : (save_poi false db pd true).1 =
          db.map (fun p =>
            if p.external_id = pd.external_id then applyFields p pd else p) := by
        simp [save_poi, hq]
      rw [hmap, List.forall₂_map_right_iff]
      rw [List.forall₂_same]
      intro p _
      constructor
      · intro hp
        simp only [hp, if_pos rfl]
        refine ⟨rfl, rfl, rfl, rfl, rfl, rfl, ?_⟩
        intro d hd
        simp [applyFields, hd]
      · intro hp
        simp [if_neg hp]

/-- A concrete record for witnesses. -/
def pdEx : PoiData :=
  { external_id := .str "1".data, name := .str "A".data, latitude := ⟨1, 0⟩,
    longitude := ⟨2, 0⟩, category := .str "c".data, ratings := .list [] }

/-- Witness for `save_poi_reconciliation`: all three branches exercised on
concrete stores. -/
theorem save_poi_reconciliation_witness :
    (save_poi false [] pdEx false).2 = ⟨1, 0, 0⟩ ∧
    save_poi false [createPoi pdEx] pdEx false = ([createPoi pdEx], ⟨0, 1, 0⟩) ∧
    (save_poi false [createPoi pdEx] pdEx true).2 = ⟨0, 0, 1⟩ := by
  have hmem : ∃ p ∈ [createPoi pdEx], p.external_id = pdEx.external_id :=
    ⟨createPoi pdEx, List.mem_singleton_self _, rfl⟩
  refine ⟨?_, ?_, ?_⟩
  · obtain ⟨r, hr, -⟩ := (save_poi_reconciliation [] pdEx false).1 (by simp)
    rw [hr]
  · exact (save_poi_reconciliation [createPoi pdEx] pdEx false).2.1 hmem
  · exact ((save_poi_reconciliation [createPoi pdEx] pdEx true).2.2 hmem).1

/-- C2 counterexample.  The claim maps `"4.5"` to the single-element
sequence `[4.5]`, but `json.loads` succeeds on a bare numeral, so
`parse_ratings` returns the scalar `4.5` and the comma-split and
single-float fallbacks are never reached. -/
theorem parse_ratings_bare_numeral_not_singleton :
    parse_ratings (PyVal.str "4.5".data) ≠ PyVal.list [PyVal.float ⟨45, -1⟩] ∧
    parse_ratings (PyVal.str "4.5".data) = PyVal.float ⟨45, -1⟩ := by
  constructor
  · decide
  · decide

/-- C2 (amended).  The documented example mappings of `parse_ratings`,
with the bare-numeral case corrected: `"4.5"` yields the scalar `4.5`
(the successful JSON parse is returned as-is), not a sequence. -/
theorem parse_ratings_examples :
    parse_ratings (.str "[1,2,3]".data) = .list [.int 1, .int 2, .int 3] ∧
    parse_ratings (.str "{1,2,3}".data) =
      .list [.float ⟨1, 0⟩, .float ⟨2, 0⟩, .float ⟨3, 0⟩] ∧
    parse_ratings (.str "4.5".data) = .float ⟨45, -1⟩ ∧
    parse_ratings (.str "".data) = .list [] ∧
    parse_ratings (.str "abc".data) = .list [] ∧
    (∀ xs, parse_ratings (.list xs) = .list xs) := by
  exact ⟨by decide, by decide, by decide, by decide, by decide, fun xs => rfl⟩

/-- C3 counterexample.  The claim says the result is always a sequence,
but on input `"4.5"` the result is the scalar float `4.5`. -/
theorem parse_ratings_result_not_sequence :
    isPyList (parse_ratings (PyVal.str "4.5".data)) = false := by
  decide

theorem parse_ratings_fallback_is_list (s : List Char)
    (h : jsonLoads s = Option.none) :
    isPyList (parse_ratings (.str s)) = true := by
  simp only [parse_ratings, h]
  cases hm : ((splitOnCh ',' (stripBraces s)).filter (· ≠ [])).mapM
      (fun x => pyFloatOfStr (pyStrip x)) with
  | some fs => rfl
  | none =>
    cases hf : pyFloatOfStr s with
    | some f => rfl
    | none => rfl

/-- C3 (amended).  `parse_ratings` is total (every caught exception ends
in a returned value), but its result is a sequence only outside the
successful-JSON branch: the result is a list, or the input was a string
whose whole-JSON parse succeeded and the result is exactly that parsed
JSON value (which may be a scalar, `None`, or an object); a list comes
back as-is (numeric or not), and every non-string non-list input yields
`[]`. -/
theorem parse_ratings_total_shape (v : PyVal) :
    (isPyList (parse_ratings v) = true ∨
      ∃ s, v = .str s ∧ jsonLoads s = some (parse_ratings v)) ∧
    ((∀ s, v ≠ .str s) → (∀ xs, v ≠ .list xs) → parse_ratings v = .list []) := by
  constructor
  · cases v with
    | str s =>
      cases h : jsonLoads s with
      | some j => exact Or.inr ⟨s, rfl, by simp [parse_ratings, h]⟩
      | none => exact Or.inl (parse_ratings_fallback_is_list s h)
    | list xs => exact Or.inl rfl
    | none => exact Or.inl rfl
    | bool b => exact Or.inl rfl
    | int n => exact Or.inl rfl
    | float d => exact Or.inl rfl
    | dict kvs => exact Or.inl rfl
  · intro hs hl
    cases v with
    | str s => exact absurd rfl (hs s)
    | list xs => exact absurd rfl (hl xs)
    | none => rfl
    | bool b => rfl
    | int n => rfl
    | float d => rfl
    | dict kvs => rfl

/-- Witness for `parse_ratings_total_shape` at the non-string non-list
input `None`. -/
theorem parse_ratings_total_shape_witness :
    parse_ratings PyVal.none = PyVal.list [] :=
  (parse_ratings_total_shape PyVal.none).2
    (fun _ hs => PyVal.noConfusion hs) (fun _ hx => PyVal.noConfusion hx)

/-- C9 counterexample.  A bare number stored in `ratings` is not a
sequence, so per the claim the average should be `0.0`; the code instead
returns `float(ratings)`, here `4.5`. -/
theorem average_rating_bare_number_not_zero :
    average_rating (PyVal.float ⟨45, -1⟩) = 9 / 2 ∧
    average_rating (PyVal.float ⟨45, -1⟩) ≠ 0 := by
  have h : average_rating (PyVal.float ⟨45, -1⟩) = 9 / 2 := by
    simp [average_rating, pyTruthy, Dec.toRat]
    norm_num
  exact ⟨h, by rw [h]; norm_num⟩

/-- C9 (amended).  `average_rating` never raises and returns: the exact
mean for a list whose elements `sum` accepts (in particular `2.0` for
`[1,2,3]`, and `0.0` for the empty list); `0.0` for a list `sum` rejects,
for strings, for `None` and for objects; and — the amendment — the value
itself as a float for a bare `bool`/`int`/`float` ratings value. -/
theorem average_rating_characterization :
    (∀ (xs : List PyVal) (qs : List ℚ), xs.mapM pyNumToRat = some qs →
      average_rating (.list xs) = qs.sum / (xs.length : ℚ)) ∧
    average_rating (.list [.int 1, .int 2, .int 3]) = 2 ∧
    (∀ xs : List PyVal, xs.mapM pyNumToRat = Option.none →
      average_rating (.list xs) = 0) ∧
    average_rating (.list []) = 0 ∧
    (∀ s, average_rating (.str s) = 0) ∧
    average_rating .none = 0 ∧
    (∀ kvs, average_rating (.dict kvs) = 0) ∧
    (∀ b, average_rating (.bool b) = if b then 1 else 0) ∧
    (∀ n : Int, average_rating (.int n) = (n : ℚ)) ∧
    (∀ d : Dec, average_rating (.float d) = d.toRat) := by
  refine ⟨?_, ?_, ?_, ?_, ?_, rfl, ?_, ?_, ?_, ?_⟩
  · intro xs qs h
    cases xs with
    | nil =>
      simp only [List.mapM] at h
      obtain rfl : qs = [] := by simpa [List.mapM.loop] using h.symm
      simp [average_rating, pyTruthy]
    | cons x xs' =>
      have hsum : pySum (x :: xs') = some qs.sum := by
        unfold pySum
        rw [h]
        rfl
      simp [average_rating, pyTruthy, hsum]
  · simp [average_rating, pyTruthy, pySum, List.mapM, List.mapM.loop, pyNumToRat]
    norm_num
  · intro xs h
    cases xs with
    | nil => simp [List.mapM, List.mapM.loop] at h
    | cons x xs' =>
      have hsum : pySum (x :: xs') = Option.none := by
        unfold pySum
        rw [h]
        rfl
      simp [average_rating, pyTruthy, hsum]
  · simp [average_rating, pyTruthy]
  · intro s
    cases s <;> simp [average_rating, pyTruthy]
  · intro kvs
    cases kvs <;> simp [average_rating, pyTruthy]
  · intro b
    cases b <;> simp [average_rating, pyTruthy]
  · intro n
    by_cases hn : n = 0
    · subst hn; simp [average_rating, pyTruthy]
    · simp [average_rating, pyTruthy, hn]
  · intro d
    by_cases hm : d.mant = 0
    · simp [average_rating, pyTruthy, hm, Dec.toRat]
    · simp [average_rating, pyTruthy, hm]

/-- Witness for `average_rating_characterization`: the all-numeric case
at `[1, 2]`. -/
theorem average_rating_characterization_witness :
    average_rating (.list [.int 1, .int 2]) = 3 / 2 := by
  have h := average_rating_characterization.1 [.int 1, .int 2] [1, 2]
    (by norm_num [List.mapM, List.mapM.loop, pyNumToRat])
  rw [h]
  norm_num

/-- C4 (amended).  On whole-document XML parse failure the two entry
points diverge: `import_xml_from_content` (the remote path) logs the
"trying SearchSmartly format" notice and returns the untouched store with
`(0,0,0)`, while `import_xml` (the local-file path) raises
`CommandError('Invalid XML file: ...')` instead of returning counters
(the orchestrator then reports that source as an error). -/
theorem xml_parse_failure_behavior (failAt : Nat → Bool) (upd : Bool)
    (db : List StoredPoi) :
    import_xml_from_content failAt Option.none upd db = (db, ⟨0, 0, 0⟩, true) ∧
    import_xml failAt Option.none upd db = .error "Invalid XML file".data :=
  ⟨rfl, rfl⟩

/-- C4 counterexample.  The claim says every XML source with an
unparseable document yields empty results rather than an error, but the
local-file path `import_xml` produces no counters at all: it raises. -/
theorem import_xml_local_parse_failure_raises :
    import_xml (fun _ => false) Option.none false [] =
      .error "Invalid XML file".data ∧
    (import_xml (fun _ => false) Option.none false []).toOption = Option.none :=
  ⟨rfl, rfl⟩

/-- C5 counterexample.  A response whose content-type contains "json" but
whose URL ends in ".csv" is dispatched to the CSV parser: the very first
test `'csv' in content_type or url.lower().endswith('.csv')` fires on the
URL extension before the json content-type is ever consulted. -/
theorem url_dispatch_ct_json_ext_csv :
    resolveUrlFormat "application/json".data "http://example.com/data.csv".data
      = some .csv ∧
    resolveUrlFormat "application/json".data "http://example.com/data.csv".data
      ≠ some .json := by
  exact ⟨by decide, by decide⟩

/-- C5 (amended).  Remote dispatch tests the formats in the fixed order
csv, json, xml, and for each format accepts on content-type substring
*or* URL extension; so a "csv" content-type always wins, a "json"
content-type wins unless the csv test already fired (in particular a
`.csv` URL extension beats a json content-type), and only when the
content-type matches none of the three names does dispatch reduce to the
extension chain. -/
theorem url_dispatch_order (ct url : List Char) :
    (containsSub "csv".data (pyLower ct) = true →
      resolveUrlFormat ct url = some .csv) ∧
    (containsSub "csv".data (pyLower ct) = false →
      listEndsWith ".csv".data (pyLower url) = false →
      containsSub "json".data (pyLower ct) = true →
      resolveUrlFormat ct url = some .json) ∧
    (containsSub "csv".data (pyLower ct) = false →
      containsSub "json".data (pyLower ct) = false →
      containsSub "xml".data (pyLower ct) = false →
      resolveUrlFormat ct url =
        (if listEndsWith ".csv".data (pyLower url) then some .csv
         else if listEndsWith ".json".data (pyLower url) then some .json
         else if listEndsWith ".xml".data (pyLower url) then some .xml
         else Option.none)) := by
  refine ⟨fun h1 => ?_, fun h1 h2 h3 => ?_, fun h1 h2 h3 => ?_⟩
  · simp [resolveUrlFormat, h1]
  · simp [resolveUrlFormat, h1, h2, h3]
  · simp [resolveUrlFormat, h1, h2, h3]

/-- Witness for `url_dispatch_order`: a json content-type with an
extensionless URL dispatches to JSON. -/
theorem url_dispatch_order_witness :
    resolveUrlFormat "application/json".data "http://example.com/data".data
      = some .json :=
  (url_dispatch_order "application/json".data "http://example.com/data".data).2.1
    (by decide) (by decide) (by decide)

/-- A well-formed record element under the `DATA_RECORD` container tag,
for the XML counterexamples. -/
def drRec : XmlElem :=
  .mk "DATA_RECORD".data Option.none
    [.mk "pid".data (some "7".data) [],
     .mk "pname".data (some "P".data) [],
     .mk "platitude".data (some "1.5".data) [],
     .mk "plongitude".data (some "2.5".data) [],
     .mk "pcategory".data (some "c".data) [],
     .mk "pratings".data (some "{3,4}".data) []]

/-- A document whose only record container is `DATA_RECORD`. -/
def drTree : XmlElem :=
  .mk "root".data Option.none [drRec]

/-- C6 counterexample.  On a document whose records sit under
`DATA_RECORD`, the remote-content path finds the record element but the
local-file path — whose candidate list stops at `item` — falls back to
treating the whole root as a single record, so the two paths do not
search the same container tags. -/
theorem xml_container_local_remote_divergence :
    (xmlRecordElemsContent drTree).map XmlElem.tag = ["DATA_RECORD".data] ∧
    (xmlRecordElemsFile drTree).map XmlElem.tag = ["root".data] ∧
    ("root".data : List Char) ≠ "DATA_RECORD".data := by
  exact ⟨by decide, by decide, by decide⟩

/-- C6 (amended).  Both paths search `poi`, then `point`, then `item`
(first non-empty match wins) and fall back to the root as a single
record; but only the remote-content path additionally tries
`DATA_RECORD` before that fallback — the local-file path never consults
it. -/
theorem xml_container_preference (root : XmlElem) :
    (findallDesc "poi".data root ≠ [] →
      xmlRecordElemsContent root = findallDesc "poi".data root ∧
      xmlRecordElemsFile root = findallDesc "poi".data root) ∧
    (findallDesc "poi".data root = [] → findallDesc "point".data root ≠ [] →
      xmlRecordElemsContent root = findallDesc "point".data root ∧
      xmlRecordElemsFile root = findallDesc "point".data root) ∧
    (findallDesc "poi".data root = [] → findallDesc "point".data root = [] →
      findallDesc "item".data root ≠ [] →
      xmlRecordElemsContent root = findallDesc "item".data root ∧
      xmlRecordElemsFile root = findallDesc "item".data root) ∧
    (findallDesc "poi".data root = [] → findallDesc "point".data root = [] →
      findallDesc "item".data root = [] →
      xmlRecordElemsFile root = [root] ∧
      (findallDesc "DATA_RECORD".data root ≠ [] →
        xmlRecordElemsContent root = findallDesc "DATA_RECORD".data root) ∧
      (findallDesc "DATA_RECORD".data root = [] →
        xmlRecordElemsContent root = [root])) := by
  refine ⟨fun h1 => ?_, fun h1 h2 => ?_, fun h1 h2 h3 => ?_, fun h1 h2 h3 => ?_⟩
  · cases hpoi : findallDesc "poi".data root with
    | nil => exact absurd hpoi h1
    | cons a as =>
      exact ⟨by simp [xmlRecordElemsContent, hpoi],
        by simp [xmlRecordElemsFile, hpoi]⟩
  · cases hpt : findallDesc "point".data root with
    | nil => exact absurd hpt h2
    | cons a as =>
      exact ⟨by simp [xmlRecordElemsContent, h1, hpt],
        by simp [xmlRecordElemsFile, h1, hpt]⟩
  · cases hit : findallDesc "item".data root with
    | nil => exact absurd hit h3
    | cons a as =>
      exact ⟨by simp [xmlRecordElemsContent, h1, h2, hit],
        by simp [xmlRecordElemsFile, h1, h2, hit]⟩
  · refine ⟨by simp [xmlRecordElemsFile, h1, h2, h3], fun h4 => ?_, fun h4 => ?_⟩
    · cases hdr : findallDesc "DATA_RECORD".data root with
      | nil => exact absurd hdr h4
      | cons a as => simp [xmlRecordElemsContent, h1, h2, h3, hdr]
    · simp [xmlRecordElemsContent, h1, h2, h3, h4]

/-- Witness for `xml_container_preference`: the `DATA_RECORD`-only
document exercises the branch where the two paths diverge. -/
theorem xml_container_preference_witness :
    xmlRecordElemsContent drTree = [drRec] ∧
    xmlRecordElemsFile drTree = [drTree] := by
  have h := (xml_container_preference drTree).2.2.2 rfl rfl rfl
  have hdr : findallDesc "DATA_RECORD".data drTree = [drRec] := rfl
  refine ⟨?_, h.1⟩
  rw [h.2.1 (by rw [hdr]; exact List.cons_ne_nil _ _), hdr]

theorem save_poi_outcome_sum (storeFail : Bool) (db : List StoredPoi)
    (pd : PoiData) (upd : Bool) :
    ((save_poi storeFail db pd upd).2).imported +
      ((save_poi storeFail db pd upd).2).skipped +
      ((save_poi storeFail db pd upd).2).updated = 1 := by
  cases storeFail with
  | true => rfl
  | false =>
    cases h : db.find? (fun p => decide (p.external_id = pd.external_id)) with
    | none => simp [save_poi, h]
    | some q => cases upd <;> simp [save_poi, h]

theorem runRecords_sum (failAt : Nat → Bool) (upd : Bool)
    (rs : List (Option PoiData)) :
    ∀ (db : List StoredPoi) (i : Nat),
      ((runRecords failAt upd rs db i).2).imported +
        ((runRecords failAt upd rs db i).2).skipped +
        ((runRecords failAt upd rs db i).2).updated = rs.length := by
  induction rs with
  | nil => intro db i; rfl
  | cons rec rest ih =>
    intro db i
    have hstep : ∀ (st : List StoredPoi × Counts),
        (st.2.imported + st.2.skipped + st.2.updated = 1) →
        ((st.1, st.2 + (runRecords failAt upd rest st.1 (i + 1)).2) :
            List StoredPoi × Counts).2.imported +
          (st.2 + (runRecords failAt upd rest st.1 (i + 1)).2).skipped +
          (st.2 + (runRecords failAt upd rest st.1 (i + 1)).2).updated =
          rest.length + 1 := by
      intro st hst
      simp only [counts_add_imported, counts_add_skipped, counts_add_updated]
      have := ih st.1 (i + 1)
      omega
    cases rec with
    | some pd =>
      have h :=
        hstep (save_poi (failAt i) db pd upd) (save_poi_outcome_sum _ _ _ _)
      simpa [runRecords] using h
    | none =>
      have h := hstep (db, ⟨0, 1, 0⟩) rfl
      simpa [runRecords] using h

/-- C10.  Every record attempt lands in exactly one counter: `save_poi`
returns only `(1,0,0)`, `(0,1,0)` or `(0,0,1)`, a store failure returns
`(0,1,0)`, a failed record build adds `(0,1,0)`, and consequently the
CSV importer's three counters always sum to the number of `DictReader`
rows of the source. -/
theorem record_attempt_partition :
    (∀ (storeFail : Bool) (db : List StoredPoi) (pd : PoiData) (upd : Bool),
      (save_poi storeFail db pd upd).2 = ⟨1, 0, 0⟩ ∨
      (save_poi storeFail db pd upd).2 = ⟨0, 1, 0⟩ ∨
      (save_poi storeFail db pd upd).2 = ⟨0, 0, 1⟩) ∧
    (∀ (db : List StoredPoi) (pd : PoiData) (upd : Bool),
      (save_poi true db pd upd).2 = ⟨0, 1, 0⟩) ∧
    (∀ (failAt : Nat → Bool) (content : List Char) (upd : Bool)
       (db : List StoredPoi),
      ((import_csv_from_content failAt content upd db).2).imported +
        ((import_csv_from_content failAt content upd db).2).skipped +
        ((import_csv_from_content failAt content upd db).2).updated =
        (dictReaderRows (pySplitlines content)).length) := by
  refine ⟨?_, fun db pd upd => rfl, ?_⟩
  · intro storeFail db pd upd
    cases storeFail with
    | true => exact Or.inr (Or.inl rfl)
    | false =>
      cases h : db.find? (fun p => decide (p.external_id = pd.external_id)) with
      | none => exact Or.inl (by simp [save_poi, h])
      | some q =>
        cases upd with
        | true => exact Or.inr (Or.inr (by simp [save_poi, h]))
        | false => exact Or.inr (Or.inl (by simp [save_poi, h]))
  · intro failAt content upd db
    cases hl : pySplitlines content with
    | nil => simp [import_csv_from_content, hl, dictReaderRows]
    | cons hdr rest =>
      have h := runRecords_sum failAt upd
        ((dictReaderRows (hdr :: rest)).map buildCsvPoi) db 0
      simpa [import_csv_from_content, hl] using h

/-- The CSV content of the C7 example: the first data row stops after the
name, so `DictReader` fills its `poi_latitude` with `None` and the
record attempt fails; the second row is complete. -/
def exCsvContent : List Char :=
  "poi_id,poi_name,poi_latitude,poi_longitude,poi_category,poi_ratings\n1,A\n2,B,1.0,2.0,Cat,5".data

/-- C7.  A failing record attempt (unbuildable record or store failure)
contributes exactly `(0,1,0)`, leaves the store untouched, and the
remaining records of the source are still processed from the same state;
concretely, the two-row CSV source whose first row is missing its
`poi_latitude` value yields `skipped = 1` for that row and still imports
the second row. -/
theorem csv_record_failure_isolation :
    (∀ (failAt : Nat → Bool) (upd : Bool) (rec : Option PoiData)
       (rs : List (Option PoiData)) (db : List StoredPoi) (i : Nat),
      rec = Option.none ∨ failAt i = true →
      runRecords failAt upd (rec :: rs) db i =
        ((runRecords failAt upd rs db (i + 1)).1,
          Counts.mk 0 1 0 + (runRecords failAt upd rs db (i + 1)).2)) ∧
    (import_csv_from_content (fun _ => false) exCsvContent false []).2 =
      ⟨1, 1, 0⟩ := by
  constructor
  · intro failAt upd rec rs db i h
    rcases h with h | h
    · subst h
      rfl
    · cases rec with
      | some pd => simp [runRecords, save_poi, h]
      | none => rfl
  · decide

/-- Witness for `csv_record_failure_isolation`: a single failing record
attempt yields exactly one skip. -/
theorem csv_record_failure_isolation_witness :
    runRecords (fun _ => false) false [Option.none] [] 0 = ([], ⟨0, 1, 0⟩) := by
  have h := csv_record_failure_isolation.1 (fun _ => false) false Option.none
    [] [] 0 (Or.inl rfl)
  rw [h]
  decide

/-- The output line `handle` writes for one source. -/
def lineFor (env : List Char → Except (List Char) Counts) (s : List Char) :
    OutLine :=
  match env s with
  | .ok c => .success s c
  | .error e => .error s e

/-- The sum of the counters of exactly the successfully processed
sources (the spec-side description of the aggregate totals). -/
def sumOkCounts (env : List Char → Except (List Char) Counts) :
    List (List Char) → Counts
  | [] => ⟨0, 0, 0⟩
  | s :: ss =>
    match env s with
    | .ok c => c + sumOkCounts env ss
    | .error _ => sumOkCounts env ss

theorem handleSources_eq (env : List Char → Except (List Char) Counts)
    (ss : List (List Char)) :
    handleSources env ss = (sumOkCounts env ss, ss.map (lineFor env)) := by
  induction ss with
  | nil => rfl
  | cons s ss ih =>
    cases h : env s with
    | ok c => simp [handleSources, sumOkCounts, lineFor, h, ih]
    | error e => simp [handleSources, sumOkCounts, lineFor, h, ih]

/-- C8.  The orchestrator run never aborts: every source produces exactly
one output line (a success line with its counters, or an error line when
`import_file` raised), the aggregate totals are the sum over the
successfully processed sources only — failed sources contribute nothing —
and the final totals line is always printed, even when every source
failed. -/
theorem handle_totals_and_output (env : List Char → Except (List Char) Counts)
    (sources : List (List Char)) :
    (handle env sources).1 = sumOkCounts env sources ∧
    (handle env sources).2 =
      sources.map (lineFor env) ++ [.totals (sumOkCounts env sources)] ∧
    (handle env sources).2.getLast? =
      some (.totals (sumOkCounts env sources)) := by
  have h := handleSources_eq env sources
  refine ⟨?_, ?_, ?_⟩
  · simp [handle, h]
  · simp [handle, h]
  · simp [handle, h]
